import Mathlib

/-!
# Verification of the DJ Toggle Experiment Populator

Shallow embedding of `src/main.py`: a synthetic trial generator that runs a
configured number of trials, evaluating three experiments (lead, bass, drums)
per trial, converting probabilistically according to per-variation rate
tables, aggregating `total`/`converted` counters per observed variation, and
periodically flushing buffered events to an external collaborator.

The external collaborator (the LaunchDarkly client) and the random source are
modelled as an explicit environment `Env`: variation-assignment functions per
experiment (one value per trial index), and a stream of integer draws standing
for the successive `random.randint(1, 100)` calls (three per trial, in the
fixed order lead, bass, drums).  Aggregate tables (Python dicts keyed by
variation name) are association lists with first-match update, mirroring dict
semantics.
-/

namespace DJToggle

/-! ## Configuration constants (src/main.py lines 40-55) -/

def NUMBER_OF_ITERATIONS : Nat := 207

def METRIC_NAME : String := "vote"

def FLUSH_INTERVAL : Nat := 10

def LEAD_FLAG : String := "leadArrangement"

def BASS_FLAG : String := "bassArrangement"

def DRUMS_FLAG : String := "drumArrangement"

/-! ## Conversion-rate tables (src/main.py lines 65-88) -/

def LEAD_CONVERSION_RATES : List (String × Nat) :=
  [("banjo", 38), ("techno", 29), ("epiano", 28), ("organ", 27),
   ("original", 30), ("silence", 0)]

def BASS_CONVERSION_RATES : List (String × Nat) :=
  [("trance", 38), ("original", 29), ("tuba", 27), ("strings", 28),
   ("silence", 0)]

def DRUMS_CONVERSION_RATES : List (String × Nat) :=
  [("fourOnTheFloor", 38), ("original", 29), ("syncopated", 28),
   ("casio", 27), ("basicTick", 0)]

/-! ## Helper functions (src/main.py lines 100-107) -/

/-- First-match lookup in an association list, mirroring Python `dict` access
(keys in the tables and stats dicts are unique, so first match is the match). -/
def lookupRate : List (String × Nat) → String → Option Nat
  | [], _ => none
  | (k, r) :: rest, v => if k = v then some r else lookupRate rest v

/-- `get_conversion_rate` (line 105-107): `rates.get(variation, 0)` —
rate for a variation, defaulting to 0 if unknown. -/
def get_conversion_rate (variation : String) (rates : List (String × Nat)) : Nat :=
  match lookupRate rates variation with
  | some r => r
  | none => 0

/-- `should_convert` (line 100-102): `random.randint(1, 100) <= conversion_rate`.
The draw (the value returned by `randint`) is passed in explicitly. -/
def should_convert (draw : Nat) (conversion_rate : Nat) : Bool :=
  decide (draw ≤ conversion_rate)

/-! ## Aggregate rows (src/main.py lines 133-137, 167-197)

`stats["lead"]` etc. are dicts from variation name to
`{"total": …, "converted": …}`; we model each as an association list of
`Row`s, created lazily on first observation. -/

structure Row where
  total : Nat
  converted : Nat
deriving Repr, DecidableEq

abbrev Stats := List (String × Row)

def lookupRow : Stats → String → Option Row
  | [], _ => none
  | (k, r) :: rest, v => if k = v then some r else lookupRow rest v

/-- `if variation not in stats[exp]: stats[exp][variation] = {"total": 0, "converted": 0}`
(lines 167-168 and analogues): create the row on first observation. -/
def ensureRow (stats : Stats) (v : String) : Stats :=
  if (lookupRow stats v).isSome then stats else stats ++ [(v, ⟨0, 0⟩)]

/-- `stats[exp][variation]["total"] += 1` (line 169 and analogues):
increment `total` of the (unique) row keyed `v`. -/
def incTotal : Stats → String → Stats
  | [], _ => []
  | (k, r) :: rest, v =>
    if k = v then (k, ⟨r.total + 1, r.converted⟩) :: rest
    else (k, r) :: incTotal rest v

/-- `stats[exp][variation]["converted"] += 1` (line 173 and analogues). -/
def incConverted : Stats → String → Stats
  | [], _ => []
  | (k, r) :: rest, v =>
    if k = v then (k, ⟨r.total, r.converted + 1⟩) :: rest
    else (k, r) :: incConverted rest v

/-- Sum of the `total` counters over all aggregate rows of one experiment. -/
def sumTotals (stats : Stats) : Nat := (stats.map (fun p => p.2.total)).sum

/-- Sum of the `converted` counters over all aggregate rows of one experiment. -/
def sumConverted (stats : Stats) : Nat := (stats.map (fun p => p.2.converted)).sum

/-- The `total` counter recorded for variation `v` (0 when no row exists). -/
def rowTotal (stats : Stats) (v : String) : Nat :=
  match lookupRow stats v with
  | some r => r.total
  | none => 0

/-- The `converted` counter recorded for variation `v` (0 when no row exists). -/
def rowConverted (stats : Stats) (v : String) : Nat :=
  match lookupRow stats v with
  | some r => r.converted
  | none => 0

/-! ## The environment: collaborator assignments and the random stream -/

/-- The external inputs of one run: what `client.variation` returns for each
flag on each trial (the context is fresh per trial, so the assignment is a
function of the trial index), and the stream of `random.randint(1, 100)` draws.
Trial `i` consumes draws `3*i` (lead), `3*i+1` (bass), `3*i+2` (drums): the
source draws exactly three integers per trial, in that fixed order. -/
structure Env where
  leadAssign : Nat → String
  bassAssign : Nat → String
  drumsAssign : Nat → String
  rand : Nat → Nat

/-- A random stream is valid when every draw lies in `randint(1, 100)`'s
range `[1, 100]`. -/
def ValidRand (rand : Nat → Nat) : Prop := ∀ i, 1 ≤ rand i ∧ rand i ≤ 100

/-! ## The per-experiment block of the trial loop (src/main.py lines 163-197)

Each of the three `----- X EXPERIMENT -----` blocks performs the same steps on
its own stats dict: look up the rate of the assigned variation, ensure the row
exists, increment `total`, and if `should_convert` fires, `client.track` and
increment `converted`.  `expTrial` is that block; the returned `Bool` records
whether `client.track` was called. -/

def expTrial (rates : List (String × Nat)) (variation : String) (draw : Nat)
    (stats : Stats) : Stats × Bool :=
  let rate := get_conversion_rate variation rates
  let stats1 := ensureRow stats variation
  let stats2 := incTotal stats1 variation
  if should_convert draw rate then (incConverted stats2 variation, true)
  else (stats2, false)

/-! ## The run state and the trial loop (src/main.py lines 159-218) -/

/-- State carried across the loop: the three stats dicts, plus counters for
the externally visible `client.track` and `client.flush` calls. -/
structure SimState where
  lead : Stats
  bass : Stats
  drums : Stats
  trackCalls : Nat
  flushCalls : Nat
deriving Repr, DecidableEq

def initState : SimState := ⟨[], [], [], 0, 0⟩

/-- The body of `for i in range(NUMBER_OF_ITERATIONS)` (lines 159-209):
three experiment blocks in order lead, bass, drums, then
`if (i + 1) % FLUSH_INTERVAL == 0: client.flush()`.  Progress printing and the
inter-trial sleep have no effect on the state and are not modelled. -/
def trialStep (env : Env) (i : Nat) (s : SimState) : SimState :=
  let leadRes := expTrial LEAD_CONVERSION_RATES (env.leadAssign i) (env.rand (3 * i)) s.lead
  let bassRes := expTrial BASS_CONVERSION_RATES (env.bassAssign i) (env.rand (3 * i + 1)) s.bass
  let drumsRes := expTrial DRUMS_CONVERSION_RATES (env.drumsAssign i) (env.rand (3 * i + 2)) s.drums
  { lead := leadRes.1
    bass := bassRes.1
    drums := drumsRes.1
    trackCalls := s.trackCalls + (cond leadRes.2 1 0) + (cond bassRes.2 1 0)
      + (cond drumsRes.2 1 0)
    flushCalls := if (i + 1) % FLUSH_INTERVAL = 0 then s.flushCalls + 1 else s.flushCalls }

/-- State after the first `n` trials of the loop. -/
def runTrials (env : Env) : Nat → SimState
  | 0 => initState
  | n + 1 => trialStep env n (runTrials env n)

/-- A full run of `n` trials followed by the unconditional final
`client.flush()` (line 218).  The source's `populate_experiments` is this at
`n = NUMBER_OF_ITERATIONS`; claims quantify over the trial count, so the
count is a parameter. -/
def runPopulate (env : Env) (n : Nat) : SimState :=
  let s := runTrials env n
  { s with flushCalls := s.flushCalls + 1 }

/-- `populate_experiments` (lines 126-235) with the source's fixed trial
count. -/
def populate_experiments (env : Env) : SimState :=
  runPopulate env NUMBER_OF_ITERATIONS

/-! ## Experiment indexing, for claims quantified over the three experiments -/

inductive Exp
  | lead
  | bass
  | drums
deriving Repr, DecidableEq

def expStats : Exp → SimState → Stats
  | .lead, s => s.lead
  | .bass, s => s.bass
  | .drums, s => s.drums

def expRates : Exp → List (String × Nat)
  | .lead => LEAD_CONVERSION_RATES
  | .bass => BASS_CONVERSION_RATES
  | .drums => DRUMS_CONVERSION_RATES

def expAssign : Exp → Env → Nat → String
  | .lead, env => env.leadAssign
  | .bass, env => env.bassAssign
  | .drums, env => env.drumsAssign

/-- Which element of the per-trial draw triple each experiment consumes. -/
def expOffset : Exp → Nat
  | .lead => 0
  | .bass => 1
  | .drums => 2

def expRand (e : Exp) (env : Env) (i : Nat) : Nat := env.rand (3 * i + expOffset e)

/-- The projection of the trial loop onto a single experiment: iterating the
per-experiment block `expTrial` with per-trial assignments and draws.  The
rate table is a parameter because `get_conversion_rate` takes it as one.
`expStats_runTrials` below proves that each experiment's stats in the full run
are exactly this projection. -/
def runExp (rates : List (String × Nat)) (assign : Nat → String)
    (rand : Nat → Nat) : Nat → Stats
  | 0 => []
  | n + 1 => (expTrial rates (assign n) (rand n) (runExp rates assign rand n)).1

/-! ## The entry point (src/main.py lines 242-261)

`__main__`: exit 1 when `not SDK_KEY` (the key is absent from the environment
or the empty string — Python falsiness); otherwise configure the client
(first collaborator contact), run the trials only when `is_initialized()`,
and always `close()` the client before the normal exit 0. -/

/-- `not SDK_KEY`: true when `os.environ.get("SDK_KEY")` returned `None` or
the empty string. -/
def sdkKeyFalsy : Option String → Bool
  | none => true
  | some s => decide (s = "")

structure MainResult where
  exitCode : Nat
  collaboratorContacted : Bool
  runResult : Option SimState
  clientClosed : Bool
deriving Repr, DecidableEq

/-- The `if __name__ == "__main__"` block.  `initialized` is what
`ldclient.get().is_initialized()` returns; `runResult = none` means
`populate_experiments` was never entered. -/
def mainEntry (sdkKey : Option String) (initialized : Bool) (env : Env)
    (n : Nat) : MainResult :=
  if sdkKeyFalsy sdkKey then
    { exitCode := 1, collaboratorContacted := false, runResult := none,
      clientClosed := false }
  else if initialized then
    { exitCode := 0, collaboratorContacted := true,
      runResult := some (runPopulate env n), clientClosed := true }
  else
    { exitCode := 0, collaboratorContacted := true, runResult := none,
      clientClosed := true }

/-! ## Lemmas about the aggregate-row primitives -/

theorem lookupRow_append (s t : Stats) (v : String) :
    lookupRow (s ++ t) v = (lookupRow s v).or (lookupRow t v) := by
  induction s with
  | nil => simp [lookupRow]
  | cons p rest ih =>
    obtain ⟨k, r⟩ := p
    by_cases h : k = v <;> simp [lookupRow, h, ih]

theorem lookupRow_ensureRow_self (s : Stats) (v : String) :
    lookupRow (ensureRow s v) v = some ((lookupRow s v).getD ⟨0, 0⟩) := by
  unfold ensureRow
  cases h : lookupRow s v with
  | some r => simp [h]
  | none => simp [h, lookupRow_append, lookupRow]

theorem lookupRow_ensureRow_ne (s : Stats) {w v : String} (h : w ≠ v) :
    lookupRow (ensureRow s w) v = lookupRow s v := by
  unfold ensureRow
  cases hw : lookupRow s w with
  | some r => simp
  | none => simp [lookupRow_append, lookupRow, h]

theorem lookupRow_incTotal_self (s : Stats) (v : String) :
    lookupRow (incTotal s v) v
      = (lookupRow s v).map (fun r => ⟨r.total + 1, r.converted⟩) := by
  induction s with
  | nil => simp [incTotal, lookupRow]
  | cons p rest ih =>
    obtain ⟨k, r⟩ := p
    by_cases h : k = v <;> simp [incTotal, lookupRow, h, ih]

theorem lookupRow_incTotal_ne (s : Stats) {w v : String} (h : w ≠ v) :
    lookupRow (incTotal s w) v = lookupRow s v := by
  induction s with
  | nil => simp [incTotal]
  | cons p rest ih =>
    obtain ⟨k, r⟩ := p
    by_cases hk : k = w
    · subst hk
      simp [incTotal, lookupRow, h]
    · by_cases hv : k = v <;> simp [incTotal, lookupRow, hk, hv, Ne.symm h, ih]

theorem lookupRow_incConverted_self (s : Stats) (v : String) :
    lookupRow (incConverted s v) v
      = (lookupRow s v).map (fun r => ⟨r.total, r.converted + 1⟩) := by
  induction s with
  | nil => simp [incConverted, lookupRow]
  | cons p rest ih =>
    obtain ⟨k, r⟩ := p
    by_cases h : k = v <;> simp [incConverted, lookupRow, h, ih]

theorem lookupRow_incConverted_ne (s : Stats) {w v : String} (h : w ≠ v) :
    lookupRow (incConverted s w) v = lookupRow s v := by
  induction s with
  | nil => simp [incConverted]
  | cons p rest ih =>
    obtain ⟨k, r⟩ := p
    by_cases hk : k = w
    · subst hk
      simp [incConverted, lookupRow, h]
    · by_cases hv : k = v <;> simp [incConverted, lookupRow, hk, hv, Ne.symm h, ih]

/-! ## Lemmas about the per-experiment sums -/

theorem sumTotals_append (s t : Stats) :
    sumTotals (s ++ t) = sumTotals s + sumTotals t := by
  simp [sumTotals]

theorem sumTotals_ensureRow (s : Stats) (v : String) :
    sumTotals (ensureRow s v) = sumTotals s := by
  unfold ensureRow
  cases h : lookupRow s v with
  | some r => simp
  | none => simp [sumTotals_append, sumTotals]

theorem sumTotals_incTotal (s : Stats) (v : String)
    (h : (lookupRow s v).isSome = true) :
    sumTotals (incTotal s v) = sumTotals s + 1 := by
  induction s with
  | nil => simp [lookupRow] at h
  | cons p rest ih =>
    obtain ⟨k, r⟩ := p
    by_cases hk : k = v
    · simp [incTotal, hk, sumTotals]
      omega
    · simp [lookupRow, hk] at h
      have ih2 := ih h
      simp [incTotal, hk, sumTotals] at ih2 ⊢
      omega

theorem sumTotals_incConverted (s : Stats) (v : String) :
    sumTotals (incConverted s v) = sumTotals s := by
  induction s with
  | nil => simp [incConverted]
  | cons p rest ih =>
    obtain ⟨k, r⟩ := p
    by_cases hk : k = v <;> simp [incConverted, hk, sumTotals] at ih ⊢ <;> omega

theorem sumConverted_append (s t : Stats) :
    sumConverted (s ++ t) = sumConverted s + sumConverted t := by
  simp [sumConverted]

theorem sumConverted_ensureRow (s : Stats) (v : String) :
    sumConverted (ensureRow s v) = sumConverted s := by
  unfold ensureRow
  cases h : lookupRow s v with
  | some r => simp
  | none => simp [sumConverted_append, sumConverted]

theorem sumConverted_incTotal (s : Stats) (v : String) :
    sumConverted (incTotal s v) = sumConverted s := by
  induction s with
  | nil => simp [incTotal]
  | cons p rest ih =>
    obtain ⟨k, r⟩ := p
    by_cases hk : k = v <;> simp [incTotal, hk, sumConverted] at ih ⊢ <;> omega

theorem sumConverted_incConverted (s : Stats) (v : String)
    (h : (lookupRow s v).isSome = true) :
    sumConverted (incConverted s v) = sumConverted s + 1 := by
  induction s with
  | nil => simp [lookupRow] at h
  | cons p rest ih =>
    obtain ⟨k, r⟩ := p
    by_cases hk : k = v
    · simp [incConverted, hk, sumConverted]
      omega
    · simp [lookupRow, hk] at h
      have ih2 := ih h
      simp [incConverted, hk, sumConverted] at ih2 ⊢
      omega

/-! ## Lemmas about the per-experiment block `expTrial` -/

theorem lookupRow_ensureRow_isSome (s : Stats) (v : String) :
    (lookupRow (ensureRow s v) v).isSome = true := by
  rw [lookupRow_ensureRow_self]
  rfl

theorem lookupRow_incTotal_ensureRow_isSome (s : Stats) (v : String) :
    (lookupRow (incTotal (ensureRow s v) v) v).isSome = true := by
  rw [lookupRow_incTotal_self, lookupRow_ensureRow_self]
  rfl

theorem expTrial_snd (rates : List (String × Nat)) (v : String) (d : Nat)
    (s : Stats) :
    (expTrial rates v d s).2 = should_convert d (get_conversion_rate v rates) := by
  unfold expTrial
  by_cases h : should_convert d (get_conversion_rate v rates) = true <;> simp [h]

theorem sumTotals_expTrial (rates : List (String × Nat)) (v : String) (d : Nat)
    (s : Stats) :
    sumTotals (expTrial rates v d s).1 = sumTotals s + 1 := by
  unfold expTrial
  by_cases h : should_convert d (get_conversion_rate v rates) = true <;>
    simp [h, sumTotals_incConverted,
      sumTotals_incTotal _ _ (lookupRow_ensureRow_isSome s v), sumTotals_ensureRow]

theorem sumConverted_expTrial (rates : List (String × Nat)) (v : String)
    (d : Nat) (s : Stats) :
    sumConverted (expTrial rates v d s).1
      = sumConverted s + cond (expTrial rates v d s).2 1 0 := by
  unfold expTrial
  by_cases h : should_convert d (get_conversion_rate v rates) = true <;>
    simp [h, sumConverted_incTotal, sumConverted_ensureRow,
      sumConverted_incConverted _ _ (lookupRow_incTotal_ensureRow_isSome s v)]

theorem lookupRow_expTrial_ne (rates : List (String × Nat)) {w v : String}
    (h : w ≠ v) (d : Nat) (s : Stats) :
    lookupRow (expTrial rates w d s).1 v = lookupRow s v := by
  unfold expTrial
  by_cases hc : should_convert d (get_conversion_rate w rates) = true <;>
    simp [hc, lookupRow_incConverted_ne _ h, lookupRow_incTotal_ne _ h,
      lookupRow_ensureRow_ne _ h]

theorem rowTotal_expTrial_self (rates : List (String × Nat)) (v : String)
    (d : Nat) (s : Stats) :
    rowTotal (expTrial rates v d s).1 v = rowTotal s v + 1 := by
  unfold expTrial rowTotal
  by_cases h : should_convert d (get_conversion_rate v rates) = true <;>
    simp [h, lookupRow_incConverted_self, lookupRow_incTotal_self,
      lookupRow_ensureRow_self] <;>
    cases hl : lookupRow s v <;> simp [hl]

theorem rowConverted_expTrial_self (rates : List (String × Nat)) (v : String)
    (d : Nat) (s : Stats) :
    rowConverted (expTrial rates v d s).1 v
      = rowConverted s v + cond (should_convert d (get_conversion_rate v rates)) 1 0 := by
  unfold expTrial rowConverted
  by_cases h : should_convert d (get_conversion_rate v rates) = true <;>
    simp [h, lookupRow_incConverted_self, lookupRow_incTotal_self,
      lookupRow_ensureRow_self] <;>
    cases hl : lookupRow s v <;> simp [hl]

/-! ## Each experiment's stats in the full run are its single-experiment
projection -/

theorem expStats_trialStep (e : Exp) (env : Env) (i : Nat) (s : SimState) :
    expStats e (trialStep env i s)
      = (expTrial (expRates e) (expAssign e env i) (expRand e env i)
          (expStats e s)).1 := by
  cases e <;> simp [trialStep, expStats, expRates, expAssign, expRand, expOffset]

theorem expStats_runTrials (e : Exp) (env : Env) (n : Nat) :
    expStats e (runTrials env n)
      = runExp (expRates e) (expAssign e env) (expRand e env) n := by
  induction n with
  | zero => cases e <;> rfl
  | succ n ih => rw [runTrials, expStats_trialStep, ih, runExp]

/-! ## Decidable invariants on a stats table -/

/-- Every aggregate row satisfies `converted ≤ total`. -/
def rowsOK (stats : Stats) : Bool :=
  stats.all fun p => decide (p.2.converted ≤ p.2.total)

/-- The variation is in the configured rate table, or is the `"original"`
fallback supplied as the default to every `client.variation` call. -/
def knownVariation (rates : List (String × Nat)) (v : String) : Bool :=
  (lookupRate rates v).isSome || decide (v = "original")

/-- Every aggregate row's key is a configured variation or the fallback. -/
def statsKeysKnown (rates : List (String × Nat)) (stats : Stats) : Bool :=
  stats.all fun p => knownVariation rates p.1

/-! ## `converted ≤ total` is preserved by the per-experiment block -/

theorem rowsOK_ensureRow (s : Stats) (v : String) (h : rowsOK s = true) :
    rowsOK (ensureRow s v) = true := by
  unfold ensureRow
  cases hl : lookupRow s v with
  | some r => simpa using h
  | none =>
    simp only [rowsOK, List.all_eq_true] at h ⊢
    intro p hp
    rcases List.mem_append.mp hp with hp | hp
    · exact h p hp
    · simp at hp
      simp [hp]

theorem rowsOK_incTotal (s : Stats) (v : String) (h : rowsOK s = true) :
    rowsOK (incTotal s v) = true := by
  induction s with
  | nil => simpa using h
  | cons p rest ih =>
    obtain ⟨k, r⟩ := p
    simp only [rowsOK, List.all_cons, Bool.and_eq_true] at h
    by_cases hk : k = v <;>
      simp only [incTotal, hk, if_true, if_false, reduceIte, rowsOK,
        List.all_cons, Bool.and_eq_true] <;>
      refine ⟨by simp at h ⊢; omega, ?_⟩
    · simpa [rowsOK] using h.2
    · exact ih (by simpa [rowsOK] using h.2)

/-- The convert branch: after `total` was just incremented on row `v`,
incrementing `converted` on the same row keeps `converted ≤ total`. -/
theorem rowsOK_incConverted_incTotal (s : Stats) (v : String)
    (h : rowsOK s = true) :
    rowsOK (incConverted (incTotal s v) v) = true := by
  induction s with
  | nil => simpa using h
  | cons p rest ih =>
    obtain ⟨k, r⟩ := p
    simp only [rowsOK, List.all_cons, Bool.and_eq_true] at h
    by_cases hk : k = v
    · simp only [incTotal, incConverted, hk, if_true, reduceIte, rowsOK,
        List.all_cons, Bool.and_eq_true]
      refine ⟨by simp at h ⊢; omega, by simpa [rowsOK] using h.2⟩
    · simp only [incTotal, incConverted, hk, if_false, reduceIte, rowsOK,
        List.all_cons, Bool.and_eq_true]
      exact ⟨by simpa using h.1, by simpa [rowsOK] using ih (by simpa [rowsOK] using h.2)⟩

theorem rowsOK_expTrial (rates : List (String × Nat)) (v : String) (d : Nat)
    (s : Stats) (h : rowsOK s = true) :
    rowsOK (expTrial rates v d s).1 = true := by
  unfold expTrial
  by_cases hc : should_convert d (get_conversion_rate v rates) = true <;>
    simp only [hc, if_true, if_false, reduceIte]
  · exact rowsOK_incConverted_incTotal _ _ (rowsOK_ensureRow _ _ h)
  · exact rowsOK_incTotal _ _ (rowsOK_ensureRow _ _ h)

theorem rowsOK_runExp (rates : List (String × Nat)) (assign : Nat → String)
    (rand : Nat → Nat) (n : Nat) :
    rowsOK (runExp rates assign rand n) = true := by
  induction n with
  | zero => rfl
  | succ n ih => exact rowsOK_expTrial _ _ _ _ ih

/-! ## Observed keys stay inside the configured set plus the fallback -/

theorem keys_incTotal (s : Stats) (v : String) :
    (incTotal s v).map Prod.fst = s.map Prod.fst := by
  induction s with
  | nil => rfl
  | cons p rest ih =>
    obtain ⟨k, r⟩ := p
    by_cases hk : k = v <;> simp [incTotal, hk, ih]

theorem keys_incConverted (s : Stats) (v : String) :
    (incConverted s v).map Prod.fst = s.map Prod.fst := by
  induction s with
  | nil => rfl
  | cons p rest ih =>
    obtain ⟨k, r⟩ := p
    by_cases hk : k = v <;> simp [incConverted, hk, ih]

theorem statsKeysKnown_incTotal (rates : List (String × Nat)) (s : Stats)
    (v : String) :
    statsKeysKnown rates (incTotal s v) = statsKeysKnown rates s := by
  induction s with
  | nil => rfl
  | cons p rest ih =>
    obtain ⟨k, r⟩ := p
    by_cases hk : k = v
    · simp [incTotal, hk, statsKeysKnown]
    · simp [incTotal, hk, statsKeysKnown] at ih ⊢
      rw [← ih]

theorem statsKeysKnown_incConverted (rates : List (String × Nat)) (s : Stats)
    (v : String) :
    statsKeysKnown rates (incConverted s v) = statsKeysKnown rates s := by
  induction s with
  | nil => rfl
  | cons p rest ih =>
    obtain ⟨k, r⟩ := p
    by_cases hk : k = v
    · simp [incConverted, hk, statsKeysKnown]
    · simp [incConverted, hk, statsKeysKnown] at ih ⊢
      rw [← ih]

theorem statsKeysKnown_expTrial (rates : List (String × Nat)) (v : String)
    (d : Nat) (s : Stats) (hs : statsKeysKnown rates s = true)
    (hv : knownVariation rates v = true) :
    statsKeysKnown rates (expTrial rates v d s).1 = true := by
  have hensure : statsKeysKnown rates (ensureRow s v) = true := by
    unfold ensureRow
    cases hl : lookupRow s v with
    | some r => simpa using hs
    | none =>
      simp only [statsKeysKnown, List.all_eq_true] at hs ⊢
      intro p hp
      rcases List.mem_append.mp hp with hp | hp
      · exact hs p hp
      · simp at hp
        simp [hp, hv]
  unfold expTrial
  by_cases hc : should_convert d (get_conversion_rate v rates) = true <;>
    simp only [hc, Bool.false_eq_true, reduceIte]
  · rw [statsKeysKnown_incConverted, statsKeysKnown_incTotal]
    exact hensure
  · rw [statsKeysKnown_incTotal]
    exact hensure

theorem statsKeysKnown_runExp (rates : List (String × Nat))
    (assign : Nat → String) (rand : Nat → Nat) (n : Nat)
    (hassign : ∀ i, knownVariation rates (assign i) = true) :
    statsKeysKnown rates (runExp rates assign rand n) = true := by
  induction n with
  | zero => rfl
  | succ n ih => exact statsKeysKnown_expTrial _ _ _ _ ih (hassign n)

/-! ## Run-level lemmas -/

theorem sumTotals_runExp (rates : List (String × Nat)) (assign : Nat → String)
    (rand : Nat → Nat) (n : Nat) :
    sumTotals (runExp rates assign rand n) = n := by
  induction n with
  | zero => rfl
  | succ n ih => rw [runExp, sumTotals_expTrial, ih]

theorem rowConverted_expTrial_ne (rates : List (String × Nat)) {w v : String}
    (h : w ≠ v) (d : Nat) (s : Stats) :
    rowConverted (expTrial rates w d s).1 v = rowConverted s v := by
  unfold rowConverted
  rw [lookupRow_expTrial_ne _ h]

theorem rowTotal_expTrial_ne (rates : List (String × Nat)) {w v : String}
    (h : w ≠ v) (d : Nat) (s : Stats) :
    rowTotal (expTrial rates w d s).1 v = rowTotal s v := by
  unfold rowTotal
  rw [lookupRow_expTrial_ne _ h]

theorem get_conversion_rate_of_lookup (rates : List (String × Nat))
    (v : String) (r : Nat) (h : lookupRate rates v = some r) :
    get_conversion_rate v rates = r := by
  unfold get_conversion_rate
  rw [h]

theorem get_conversion_rate_of_unknown (rates : List (String × Nat))
    (v : String) (h : lookupRate rates v = none) :
    get_conversion_rate v rates = 0 := by
  unfold get_conversion_rate
  rw [h]

/-- A variation whose configured rate is 0 never converts: its recorded
`converted` counter is 0 after any number of trials, provided every draw is at
least 1 (as `randint(1, 100)` guarantees). -/
theorem rowConverted_runExp_rate_zero (rates : List (String × Nat))
    (assign : Nat → String) (rand : Nat → Nat) (v : String)
    (hrate : get_conversion_rate v rates = 0)
    (hrand : ∀ i, 1 ≤ rand i) (n : Nat) :
    rowConverted (runExp rates assign rand n) v = 0 := by
  induction n with
  | zero => rfl
  | succ n ih =>
    rw [runExp]
    by_cases h : assign n = v
    · rw [← h] at hrate ih ⊢
      rw [rowConverted_expTrial_self, hrate]
      have hc : should_convert (rand n) 0 = false := by
        have := hrand n
        simp [should_convert]
        omega
      rw [hc, ih]
      rfl
    · rw [rowConverted_expTrial_ne _ h, ih]

/-- A variation whose configured rate is 100 converts on every trial on which
it is assigned: `converted = total` for its row after any number of trials,
provided every draw is at most 100 (as `randint(1, 100)` guarantees). -/
theorem rowConverted_runExp_rate_hundred (rates : List (String × Nat))
    (assign : Nat → String) (rand : Nat → Nat) (v : String)
    (hrate : get_conversion_rate v rates = 100)
    (hrand : ∀ i, rand i ≤ 100) (n : Nat) :
    rowConverted (runExp rates assign rand n) v
      = rowTotal (runExp rates assign rand n) v := by
  induction n with
  | zero => rfl
  | succ n ih =>
    rw [runExp]
    by_cases h : assign n = v
    · rw [← h] at hrate ih ⊢
      rw [rowConverted_expTrial_self, rowTotal_expTrial_self, hrate]
      have hc : should_convert (rand n) 100 = true := by
        simp [should_convert]
        exact hrand n
      rw [hc, ih]
      rfl
    · rw [rowConverted_expTrial_ne _ h, rowTotal_expTrial_ne _ h, ih]

theorem flushCalls_runTrials (env : Env) (n : Nat) :
    (runTrials env n).flushCalls = n / FLUSH_INTERVAL := by
  induction n with
  | zero => rfl
  | succ n ih =>
    have hstep : (runTrials env (n + 1)).flushCalls
        = if (n + 1) % FLUSH_INTERVAL = 0 then (runTrials env n).flushCalls + 1
          else (runTrials env n).flushCalls := rfl
    rw [hstep, ih, Nat.succ_div]
    by_cases h : (n + 1) % FLUSH_INTERVAL = 0
    · rw [if_pos h, if_pos (Nat.dvd_iff_mod_eq_zero.mpr h)]
    · rw [if_neg h, if_neg (fun hd => h (Nat.dvd_iff_mod_eq_zero.mp hd)),
        Nat.add_zero]

theorem trackCalls_runTrials (env : Env) (n : Nat) :
    (runTrials env n).trackCalls
      = sumConverted (runTrials env n).lead
        + sumConverted (runTrials env n).bass
        + sumConverted (runTrials env n).drums := by
  induction n with
  | zero => rfl
  | succ n ih =>
    simp only [runTrials, trialStep]
    rw [sumConverted_expTrial, sumConverted_expTrial, sumConverted_expTrial, ih]
    omega

/-- The run reads only the assignment values of trials `0..n-1` and the first
`3n` random draws: two environments agreeing there produce identical states. -/
theorem runTrials_congr (env1 env2 : Env) :
    ∀ n, (∀ i, i < 3 * n → env1.rand i = env2.rand i) →
      (∀ i, i < n → env1.leadAssign i = env2.leadAssign i
        ∧ env1.bassAssign i = env2.bassAssign i
        ∧ env1.drumsAssign i = env2.drumsAssign i) →
      runTrials env1 n = runTrials env2 n := by
  intro n
  induction n with
  | zero =>
    intro _ _
    rfl
  | succ n ih =>
    intro hrand hassign
    have ihh := ih (fun i hi => hrand i (by omega)) (fun i hi => hassign i (by omega))
    obtain ⟨h1, h2, h3⟩ := hassign n (by omega)
    simp only [runTrials, trialStep, ihh, h1, h2, h3,
      hrand (3 * n) (by omega), hrand (3 * n + 1) (by omega),
      hrand (3 * n + 2) (by omega)]

/-! ## Concrete environments used by the witnesses -/

/-- An environment assigning an unconfigured variation name on every trial,
with every draw equal to 50. -/
def envW : Env :=
  { leadAssign := fun _ => "kazoo"
    bassAssign := fun _ => "kazoo"
    drumsAssign := fun _ => "kazoo"
    rand := fun _ => 50 }

/-- An environment whose assignments are configured variations. -/
def envK : Env :=
  { leadAssign := fun _ => "banjo"
    bassAssign := fun _ => "trance"
    drumsAssign := fun _ => "casio"
    rand := fun _ => 12 }

def envA : Env :=
  { leadAssign := fun _ => "banjo"
    bassAssign := fun _ => "trance"
    drumsAssign := fun _ => "casio"
    rand := fun i => i + 1 }

/-- Agrees with `envA` on trial 0's assignments and the first three draws,
and differs beyond them. -/
def envB : Env :=
  { leadAssign := fun i => if i < 1 then "banjo" else "silence"
    bassAssign := fun i => if i < 1 then "trance" else "silence"
    drumsAssign := fun i => if i < 1 then "casio" else "basicTick"
    rand := fun i => if i < 3 then i + 1 else 7 }

/-- The spec's end-to-end scenario table: one variation at rate 100, one at
rate 0. -/
def ratesW : List (String × Nat) := [("A", 100), ("B", 0)]

def assignW : Nat → String := fun i => if i % 2 = 0 then "A" else "B"

/-! ## The claims -/

/-- C1: for every run of `n` trials and each of the three experiments, the
sum of the `total` counters over all aggregate rows of that experiment equals
`n` exactly: every trial evaluates every experiment exactly once and
increments exactly one row's `total` per experiment. -/
theorem claim_C1 (env : Env) (n : Nat) (e : Exp) :
    sumTotals (expStats e (runTrials env n)) = n := by
  rw [expStats_runTrials]
  exact sumTotals_runExp _ _ _ _

/-- C2: for all trial counts `n ≥ 0` and every aggregate row of every
experiment, `converted ≤ total` holds after every trial (the state after any
number `n` of trials satisfies the invariant). -/
theorem claim_C2 (env : Env) (n : Nat) (e : Exp) :
    rowsOK (expStats e (runTrials env n)) = true := by
  rw [expStats_runTrials]
  exact rowsOK_runExp _ _ _ _

/-- C3: for a variation name not present in the experiment's configured rate
table, `get_conversion_rate` returns 0, and the aggregate row recorded for
that variation has `converted = 0` after any run of any length (given that
every draw is at least 1, as `randint(1, 100)` guarantees): an unknown
variation never converts. -/
theorem claim_C3 (env : Env) (n : Nat) (e : Exp) (v : String)
    (hunknown : lookupRate (expRates e) v = none)
    (hrand : ∀ i, 1 ≤ env.rand i) :
    get_conversion_rate v (expRates e) = 0
      ∧ rowConverted (expStats e (runTrials env n)) v = 0 := by
  refine ⟨get_conversion_rate_of_unknown _ _ hunknown, ?_⟩
  rw [expStats_runTrials]
  exact rowConverted_runExp_rate_zero _ _ _ _
    (get_conversion_rate_of_unknown _ _ hunknown)
    (fun i => hrand (3 * i + expOffset e)) n

theorem claim_C3_witness :
    get_conversion_rate "kazoo" (expRates .lead) = 0
      ∧ rowConverted (expStats .lead (runTrials envW 2)) "kazoo" = 0 :=
  claim_C3 envW 2 .lead "kazoo" (by decide)
    (fun _ => (by decide : (1 : Nat) ≤ 50))

/-- C4: the per-trial conversion decision converts exactly when the drawn
integer is at most the configured probability; consequently, over a run of
the per-experiment block (`runExp`, the loop's projection onto one
experiment, with the rate table as the parameter `get_conversion_rate` takes),
a variation configured at probability 100 converts on every trial on which it
is assigned (`converted = total` for its row) and a variation configured at
probability 0 never converts (`converted = 0`), given draws in `[1, 100]`. -/
theorem claim_C4 (rates : List (String × Nat)) (assign : Nat → String)
    (rand : Nat → Nat) (n : Nat) (v : String) (hrand : ValidRand rand) :
    (∀ d p, should_convert d p = true ↔ d ≤ p)
      ∧ (lookupRate rates v = some 100 →
          rowConverted (runExp rates assign rand n) v
            = rowTotal (runExp rates assign rand n) v)
      ∧ (lookupRate rates v = some 0 →
          rowConverted (runExp rates assign rand n) v = 0) := by
  refine ⟨fun d p => by simp [should_convert], fun h => ?_, fun h => ?_⟩
  · exact rowConverted_runExp_rate_hundred _ _ _ _
      (get_conversion_rate_of_lookup _ _ _ h) (fun i => (hrand i).2) n
  · exact rowConverted_runExp_rate_zero _ _ _ _
      (get_conversion_rate_of_lookup _ _ _ h) (fun i => (hrand i).1) n

theorem claim_C4_witness :
    rowConverted (runExp ratesW assignW (fun _ => 37) 6) "A"
      = rowTotal (runExp ratesW assignW (fun _ => 37) 6) "A" :=
  (claim_C4 ratesW assignW (fun _ => 37) 6 "A"
    (fun _ => (by decide : (1 : Nat) ≤ 37 ∧ (37 : Nat) ≤ 100))).2.1 (by decide)

/-- C5: the collaborator's flush operation is invoked after every
`FLUSH_INTERVAL`-th trial and once unconditionally after the final trial
(`n / FLUSH_INTERVAL + 1` invocations for a full run of `n` trials), and in
particular a run of 25 trials with flush interval 10 invokes it exactly 3
times, independent of the environment (assignments and draws). -/
theorem claim_C5 (env : Env) (n : Nat) :
    (runPopulate env n).flushCalls = n / FLUSH_INTERVAL + 1
      ∧ (runPopulate env 25).flushCalls = 3 := by
  constructor
  · show (runTrials env n).flushCalls + 1 = n / FLUSH_INTERVAL + 1
    rw [flushCalls_runTrials]
  · show (runTrials env 25).flushCalls + 1 = 3
    rw [flushCalls_runTrials]
    decide

/-- C6: at every point during a run, the keys of the aggregate rows of each
experiment form a subset of that experiment's configured variation set union
the fallback `"original"`, provided every variation the collaborator assigns
lies in that set (which the collaborator guarantees: it returns one of the
flag's variations or the supplied default). -/
theorem claim_C6 (env : Env) (n : Nat) (e : Exp)
    (hassign : ∀ i, knownVariation (expRates e) (expAssign e env i) = true) :
    statsKeysKnown (expRates e) (expStats e (runTrials env n)) = true := by
  rw [expStats_runTrials]
  exact statsKeysKnown_runExp _ _ _ _ hassign

theorem claim_C6_witness :
    statsKeysKnown (expRates .lead) (expStats .lead (runTrials envK 3)) = true :=
  claim_C6 envK 3 .lead
    (fun _ => (by decide : knownVariation (expRates .lead) "banjo" = true))

/-- C7: the process exits with status 1 exactly when the credential is
missing (`not SDK_KEY`: the environment variable is absent or the empty
string), and in that case no collaborator contact happens; in every other
case — including collaborator initialization failure — it exits with
status 0, after contacting the collaborator. -/
theorem claim_C7 (sdkKey : Option String) (initialized : Bool) (env : Env)
    (n : Nat) :
    (mainEntry sdkKey initialized env n).exitCode
        = (if sdkKeyFalsy sdkKey = true then 1 else 0)
      ∧ (mainEntry sdkKey initialized env n).collaboratorContacted
        = !sdkKeyFalsy sdkKey := by
  unfold mainEntry
  by_cases h : sdkKeyFalsy sdkKey = true <;> cases initialized <;> simp [h]

/-- C8: when the collaborator fails to initialize (`is_initialized()` is
false) but the credential is present, `populate_experiments` is never entered
(`runResult = none`: zero trials, empty aggregate tables, no
evaluate/track/flush calls), yet the client is still closed before the
process exits. -/
theorem claim_C8 (sdkKey : Option String) (env : Env) (n : Nat)
    (hkey : sdkKeyFalsy sdkKey = false) :
    (mainEntry sdkKey false env n).runResult = none
      ∧ (mainEntry sdkKey false env n).clientClosed = true := by
  unfold mainEntry
  simp [hkey]

theorem claim_C8_witness :
    (mainEntry (some "sdk-123") false envW 5).runResult = none
      ∧ (mainEntry (some "sdk-123") false envW 5).clientClosed = true :=
  claim_C8 (some "sdk-123") envW 5 (by decide)

/-- C9: determinism under controlled randomness: two runs whose environments
agree on the assignments of the trials actually run and on the random draws
actually consumed (the first `3n` draws) produce identical final states —
identical aggregate tables, identical track-call counts, identical
flush-call counts. -/
theorem claim_C9 (env1 env2 : Env) (n : Nat)
    (hrand : ∀ i, i < 3 * n → env1.rand i = env2.rand i)
    (hassign : ∀ i, i < n → env1.leadAssign i = env2.leadAssign i
      ∧ env1.bassAssign i = env2.bassAssign i
      ∧ env1.drumsAssign i = env2.drumsAssign i) :
    runPopulate env1 n = runPopulate env2 n := by
  unfold runPopulate
  rw [runTrials_congr env1 env2 n hrand hassign]

theorem claim_C9_witness : runPopulate envA 1 = runPopulate envB 1 :=
  claim_C9 envA envB 1 (fun i hi => by simp [envA, envB, hi])
    (fun i hi => by
      have h0 : i = 0 := by omega
      subst h0
      simp [envA, envB])

/-- C10: a success event is emitted exactly when a `converted` counter is
incremented: after any run, the number of track calls made to the
collaborator equals the sum of `converted` over all aggregate rows of all
three experiments. -/
theorem claim_C10 (env : Env) (n : Nat) :
    (runTrials env n).trackCalls
      = sumConverted (expStats .lead (runTrials env n))
        + sumConverted (expStats .bass (runTrials env n))
        + sumConverted (expStats .drums (runTrials env n)) :=
  trackCalls_runTrials env n

end DJToggle
